import Mathlib

/-!
Shallow embedding of the tuix windowing library (window.go, desktop.go,
wmgr.go) for checking the natural-language specification against the code.

Conventions:
* Go `int` is modelled as `Int` (the operations involved — comparisons,
  additions, small constants — never approach 64-bit overflow).
* A `tview.Box` rectangle is a `Rect`.  `tview.NewBox()` initializes the
  rectangle to (0, 0, 15, 10).
* A window's client primitive is modelled by the only datum the embedded
  code reads or writes on it: its rectangle.
* Calls into the window manager that the default manager treats as pure
  notifications (`Resized`) are recorded in a `notes` log so that claims
  about notifications being fired are statable.
* Object identity of windows on a desktop stack is modelled by a numeric
  window id.
-/

namespace Tuix

/-- A rectangle: x, y, width, height, as in `Box.GetRect`. -/
structure Rect where
  x : Int
  y : Int
  w : Int
  h : Int
deriving DecidableEq

/-- `WindowState` from wmgr.go: `Restored | Minimized | Maximized`. -/
inductive WindowState where
  | Restored
  | Minimized
  | Maximized
deriving DecidableEq

/-- Manager notifications a window fires (the default manager ignores them;
we log the calls). -/
inductive Note where
  | resized
deriving DecidableEq

/-- The fields of `Window` (window.go) that the embedded operations touch.
`desktop = some r` models attachment to a desktop whose `GetInnerRect()`
is `r`; `none` models a detached window (`win.desktop == nil`). -/
structure Window where
  rect : Rect
  restored : Rect
  state : WindowState
  border : Bool
  resizable : Bool
  moving : Bool
  moveX : Int
  moveY : Int
  resizing : Nat
  desktop : Option Rect
  client : Option Rect
  clientFullSize : Bool
  notes : List Note
deriving DecidableEq

/-- `NewWindow()`: a `tview.NewBox()` has rect (0,0,15,10); every other
field is Go zero-valued (the `autoActivate`/caption fields are not needed
by the embedded operations). -/
def newWindow : Window :=
  { rect := ⟨0, 0, 15, 10⟩
    restored := ⟨0, 0, 0, 0⟩
    state := WindowState.Restored
    border := false
    resizable := false
    moving := false
    moveX := 0
    moveY := 0
    resizing := 0
    desktop := none
    client := none
    clientFullSize := false
    notes := [] }

/-- `Box.GetInnerRect` of tview for a box with zero padding: shrink by one
cell on each side when bordered, clamping width/height at 0. -/
def innerRect (border : Bool) (r : Rect) : Rect :=
  let x := if border then r.x + 1 else r.x
  let y := if border then r.y + 1 else r.y
  let w := if border then r.w - 2 else r.w
  let h := if border then r.h - 2 else r.h
  ⟨x, y, if w < 0 then 0 else w, if h < 0 then 0 else h⟩

/-- `Box.InRect(x, y)` of tview. -/
def Rect.inRect (r : Rect) (px py : Int) : Bool :=
  decide (r.x ≤ px) && decide (px < r.x + r.w) &&
  decide (r.y ≤ py) && decide (py < r.y + r.h)

/-- `Window.SetRect` (window.go): clamp width/height when bordered, store
the rect, track the restored rect while in `Restored` state, re-lay-out a
full-size client to the inner rect, and notify the manager (`Resized`)
when attached. -/
def Window.setRect (win : Window) (x y width height : Int) : Window :=
  let width := if win.border ∧ width < 12 then 12 else width
  let height := if win.border ∧ height < 2 then 2 else height
  let win := { win with rect := ⟨x, y, width, height⟩ }
  let win := if win.state = WindowState.Restored then
      { win with restored := win.rect } else win
  let win := if win.client.isSome ∧ win.clientFullSize then
      { win with client := some (innerRect win.border win.rect) } else win
  if win.desktop.isSome then { win with notes := win.notes ++ [Note.resized] }
  else win

/-- `Window.SetRestoredRect` (window.go). -/
def Window.setRestoredRect (win : Window) (x y width height : Int) : Window :=
  if win.state = WindowState.Restored then
    win.setRect x y width height
  else
    let width := if win.border ∧ width < 12 then 12 else width
    let height := if win.border ∧ height < 2 then 2 else height
    { win with restored := ⟨x, y, width, height⟩ }

/-- `Window.SetBorder` (window.go): set the border flag, re-lay-out a
full-size client, notify the manager (`Resized`) when attached.  Note: it
does not touch `rect`. -/
def Window.setBorder (win : Window) (b : Bool) : Window :=
  let win := { win with border := b }
  let win := if win.client.isSome ∧ win.clientFullSize then
      { win with client := some (innerRect win.border win.rect) } else win
  if win.desktop.isSome then { win with notes := win.notes ++ [Note.resized] }
  else win

/-- `winMgr.SetState` (the manager's state-transition handler): no-op when
the requested state equals the current one; otherwise store the state and
apply the corresponding geometry through `SetRect`. -/
def mgrSetState (win : Window) (state : WindowState) : Window :=
  if state = win.state then win
  else
    let win := { win with state := state }
    match state with
    | WindowState.Restored =>
        win.setRect win.restored.x win.restored.y win.restored.w win.restored.h
    | WindowState.Minimized =>
        win.setRect 0 0 1 1
    | WindowState.Maximized =>
        match win.desktop with
        | some inner => win.setRect inner.x inner.y inner.w inner.h
        | none => win

/-- `Window.SetState` (window.go): delegate to the manager when attached,
store the bare state when detached. -/
def Window.setState (win : Window) (state : WindowState) : Window :=
  if win.desktop.isSome then mgrSetState win state
  else { win with state := state }

/-- The mouse action classifications `winMgr.DefaultMouseHandler` (wmgr.go)
compares against; `other` stands for every other `tview.MouseAction`. -/
inductive MouseAction where
  | leftDown
  | leftUp
  | move
  | leftDoubleClick
  | other
deriving DecidableEq

/-- `winMgr.DefaultMouseHandler` (wmgr.go).  `px, py` is the event
position; `button1Only` is `event.Buttons() == tcell.Button1`.  Returns
the updated window, `consumed`, and whether capture was requested
(`capture == win`; the release branch returns consumed with nil capture). -/
def defaultMouseHandler (win : Window) (action : MouseAction)
    (px py : Int) (button1Only : Bool) : Window × Bool × Bool :=
  if ¬(win.rect.inRect px py = true) ∧ ¬(win.moving = true) ∧ win.resizing = 0 then
    (win, false, false)
  else
    let step : Window × Bool × Bool :=
      match action with
      | MouseAction.leftDown =>
        let r := win.rect
        let win :=
          if win.border = true ∧ r.y ≤ py ∧ py < r.y + 1 then
            { win with moveX := px - r.x, moveY := py - r.y, moving := button1Only }
          else win
        if win.moving then (win, true, true)
        else if win.resizable then
          let hitH := px = r.x + r.w - 1
          let win := if hitH then { win with resizing := win.resizing ||| 1 } else win
          let hitV := py = r.y + r.h - 1
          let win := if hitV then { win with resizing := win.resizing ||| 2 } else win
          (win, hitH ∨ hitV, hitH ∨ hitV)
        else (win, false, false)
      | MouseAction.leftUp =>
        if win.moving = true ∨ win.resizing ≠ 0 then
          ({ win with moving := false, resizing := 0 }, true, false)
        else (win, false, false)
      | MouseAction.move =>
        let r := win.rect
        if win.moving then
          (win.setRect (r.x + ((px - r.x) - win.moveX)) (r.y + ((py - r.y) - win.moveY))
            r.w r.h, true, true)
        else if win.resizing ≠ 0 then
          let neww := if win.resizing &&& 1 ≠ 0 then px - r.x + 1 else r.w
          let newh := if win.resizing &&& 2 ≠ 0 then py - r.y + 1 else r.h
          (win.setRect r.x r.y neww newh, true, true)
        else (win, false, false)
      | _ => (win, false, false)
    if step.2.1 then step
    else
      let win := step.1
      if action = MouseAction.leftDoubleClick then
        if win.resizable = true ∧ win.desktop.isSome then
          if win.border = true ∧ win.rect.y ≤ py ∧ py < win.rect.y + 1 then
            match win.state with
            | WindowState.Minimized => (win.setState WindowState.Restored, true, false)
            | WindowState.Maximized => (win.setState WindowState.Restored, true, false)
            | WindowState.Restored => (win.setState WindowState.Maximized, true, false)
          else (win, false, false)
        else (win, false, false)
      else (win, false, false)

/-! ### Desktop stack operations

Window identity on a desktop's stack (`d.wins`, a `[]*Window` in
stack/draw order) is modelled by a numeric id. -/

/-- The loop body of `Window.BringToFront` (window.go): remove the first
occurrence and append the window at the end; an absent window leaves the
slice unchanged. -/
def btfLoop : List Nat → Nat → List Nat
  | [], _ => []
  | x :: xs, w => if x = w then xs ++ [w] else x :: btfLoop xs w

/-- `Window.BringToFront` (window.go), on the owning desktop's stack:
no-op on an empty stack or when the window is already frontmost. -/
def bringToFront (wins : List Nat) (w : Nat) : List Nat :=
  if 0 < wins.length ∧ wins.getLast? ≠ some w then btfLoop wins w else wins

/-- `Window.NextWindow` (window.go): `desk = none` models an unattached
window.  The Go loop finds the first index holding the window; not found
returns nil. -/
def nextWindow (desk : Option (List Nat)) (w : Nat) : Option Nat :=
  match desk with
  | none => none
  | some wins =>
    if wins.length ≤ 1 then none
    else
      let i := wins.indexOf w
      if i < wins.length then
        if i = 0 then wins.getLast? else wins.get? (i - 1)
      else none

/-- `Window.PrevWindow` (window.go). -/
def prevWindow (desk : Option (List Nat)) (w : Nat) : Option Nat :=
  match desk with
  | none => none
  | some wins =>
    if wins.length ≤ 1 then none
    else
      let i := wins.indexOf w
      if i < wins.length then
        if i = wins.length - 1 then wins.get? 0 else wins.get? (i + 1)
      else none

/-- Iterated `PrevWindow` (used to state the cyclic-order property). -/
def iterPrev (wins : List Nat) : Nat → Nat → Option Nat
  | 0, w => some w
  | k + 1, w =>
    match prevWindow (some wins) w with
    | none => none
    | some w2 => iterPrev wins k w2

/-! ### Desktop mouse routing

`Desktop.MouseHandler` routes a mouse event: reject positions outside the
desktop's rectangle, then offer the event to the windows topmost-first
(reverse stack order), stopping at the first consumer, and finally to the
desktop-level client.  Each window's dispatch outcome is abstracted as a
boolean function `wh` of its id; the windows actually offered the event
are returned as a trace. -/

/-- The reverse-order propagation loop of `Desktop.MouseHandler`, applied
to the already-reversed stack: returns the trace of windows offered the
event and the first consumer, if any. -/
def routeWins (wh : Nat → Bool) : List Nat → List Nat × Option Nat
  | [] => ([], none)
  | w :: ws =>
    if wh w then ([w], some w)
    else
      let r := routeWins wh ws
      (w :: r.1, r.2)

/-- `Desktop.MouseHandler`:  `drect` is the desktop's rectangle, `wins`
its stack (bottom to top), `wh` each window's dispatch outcome,
`hasClient`/`clientConsumes` the desktop-level client and its outcome.
Returns (consumed, consuming window, windows offered the event,
whether the client was offered the event). -/
def desktopMouse (drect : Rect) (wins : List Nat) (wh : Nat → Bool)
    (hasClient clientConsumes : Bool) (px py : Int) :
    Bool × Option Nat × List Nat × Bool :=
  if ¬(drect.inRect px py = true) then (false, none, [], false)
  else
    match routeWins wh wins.reverse with
    | (offered, some w) => (true, some w, offered, false)
    | (offered, none) =>
      if hasClient then (clientConsumes, none, offered, true)
      else (false, none, offered, false)

/-! ### Desktop add/remove with back-references and manager hooks

Desktops are identified by an index into `desks`; the weak
window-to-desktop back-references (`win.desktop`) live in an association
list; `Added`/`Removed` manager hook invocations are logged in order. -/

/-- A manager lifecycle hook invocation. -/
inductive Hook where
  | added (w : Nat)
  | removed (w : Nat)
deriving DecidableEq

/-- The state relevant to `Desktop.AddWindow` / `Desktop.RemoveWindow`:
the desks of all desktops, the windows' weak back-references
(absence = detached), and the hook log. -/
structure World where
  desks : List (List Nat)
  backrefs : List (Nat × Nat)
  log : List Hook
deriving DecidableEq

/-- The stack of desktop `d` (`d.wins`). -/
def World.stackOf (s : World) (d : Nat) : List Nat :=
  (s.desks.get? d).getD []

/-- `win.GetDesktop()` as an id: the window's weak back-reference. -/
def World.backref (s : World) (w : Nat) : Option Nat :=
  s.backrefs.lookup w

/-- Replace the stack of desktop `d`. -/
def World.setStack (s : World) (d : Nat) (l : List Nat) : World :=
  { s with desks := s.desks.set d l }

/-- `win.Desktop(d)`: point the window's back-reference at desktop `d`. -/
def World.setBackref (s : World) (w d : Nat) : World :=
  { s with backrefs := (w, d) :: s.backrefs.filter (fun p => ¬p.1 = w) }

/-- `Desktop.RemoveWindow` (desktop.go): remove the first matching stack
entry and fire the `Removed` hook; a window not present is a silent
no-op.  The window's back-reference is not touched. -/
def removeWindow (s : World) (d w : Nat) : World :=
  if w ∈ s.stackOf d then
    let s := s.setStack d ((s.stackOf d).erase w)
    { s with log := s.log ++ [Hook.removed w] }
  else s

/-- The unconditional tail of `Desktop.AddWindow`: append to the stack,
set the back-reference, fire the `Added` hook. -/
def addPush (s : World) (d w : Nat) : World :=
  let s := s.setStack d (s.stackOf d ++ [w])
  let s := s.setBackref w d
  { s with log := s.log ++ [Hook.added w] }

/-- `Desktop.AddWindow` (desktop.go): a window already belonging to this
desktop returns immediately; one belonging to another desktop is first
removed from it. -/
def addWindow (s : World) (d w : Nat) : World :=
  match s.backref w with
  | some d0 =>
    if d0 = d then s
    else addPush (removeWindow s d0 w) d w
  | none => addPush s d w

/-! ### Concrete sample states used by witnesses and counterexamples -/

/-- A concrete bordered window attached to a desktop with inner rectangle
(0, 0, 80, 24). -/
def sampleBorderedWin : Window :=
  { newWindow with border := true, desktop := some ⟨0, 0, 80, 24⟩ }

/-- An attached window in the `Restored` state (as created by `NewWindow`
and added to a desktop). -/
def sampleAttachedWin : Window :=
  { newWindow with desktop := some ⟨0, 0, 80, 24⟩ }

/-- A bordered window whose geometry violates the border minimums,
reached from `NewWindow` through the embedded operations themselves:
`SetRect(0,0,5,1)` (borderless, no clamp) followed by `SetBorder(true)`
(which does not re-clamp). -/
def thinBorderedWin : Window :=
  (Window.setRect newWindow 0 0 5 1).setBorder true

/-- `thinBorderedWin` after a caption grab: a primary-button press at
(0, 0), its caption row. -/
def thinMovingWin : Window :=
  (defaultMouseHandler thinBorderedWin MouseAction.leftDown 0 0 true).1

/-- A borderless, resizable window attached to a desktop — reachable by
`NewWindow().SetResizable(true)` plus `AddWindow` and `SetRect`. -/
def borderlessResizableWin : Window :=
  { newWindow with
    resizable := true
    desktop := some ⟨0, 0, 80, 24⟩
    rect := ⟨0, 0, 30, 15⟩
    restored := ⟨0, 0, 30, 15⟩ }

/-- The window of the C4 scenario: resizable, bordered, attached, at rect
(0, 0, 30, 15). -/
def scenarioWin : Window :=
  { newWindow with
    resizable := true
    border := true
    desktop := some ⟨0, 0, 80, 24⟩
    rect := ⟨0, 0, 30, 15⟩
    restored := ⟨0, 0, 30, 15⟩ }

/-- `scenarioWin` after a primary-button press at (3, 0) in its caption
row: a move drag is active with grab offset (3, 0). -/
def pressedScenarioWin : Window :=
  (defaultMouseHandler scenarioWin MouseAction.leftDown 3 0 true).1

/-- An attached window with a full-size client. -/
def sampleClientWin : Window :=
  { newWindow with
    client := some ⟨0, 0, 1, 1⟩
    clientFullSize := true
    desktop := some ⟨0, 0, 80, 24⟩ }

/-- A world with one desktop holding the single window 5, whose
back-reference points at that desktop. -/
def sampleWorld : World :=
  ⟨[[5]], [(5, 0)], []⟩

/-- Invariant for the restored-rectangle claim: along a run of
Minimize/Maximize transitions, the cached restored rectangle `R`, the
border flag and the attachment stay fixed, and the displayed rectangle
still equals `R` whenever the window is in the `Restored` state (and
always, while detached, since detached transitions never touch
geometry). -/
def C2Inv (R : Rect) (b : Bool) (dk : Option Rect) (w : Window) : Prop :=
  w.restored = R ∧ w.border = b ∧ w.desktop = dk ∧
  (w.state = WindowState.Restored → w.rect = R) ∧
  (dk = none → w.rect = R)

/-! ### Helper lemmas -/

/-- Projection of `Window.setRect`: the stored rectangle, with the border
clamp applied. -/
theorem Window.setRect_rect (win : Window) (x y width height : Int) :
    (win.setRect x y width height).rect =
      ⟨x, y, if win.border = true ∧ width < 12 then 12 else width,
        if win.border = true ∧ height < 2 then 2 else height⟩ := by
  simp only [Window.setRect]
  split_ifs <;> simp_all

/-- Projection of `Window.setRect`: the restored rectangle tracks the new
rectangle exactly while in the `Restored` state. -/
theorem Window.setRect_restored (win : Window) (x y width height : Int) :
    (win.setRect x y width height).restored =
      if win.state = WindowState.Restored then
        ⟨x, y, if win.border = true ∧ width < 12 then 12 else width,
          if win.border = true ∧ height < 2 then 2 else height⟩
      else win.restored := by
  simp only [Window.setRect]
  split_ifs <;> simp_all

theorem Window.setRect_state (win : Window) (x y width height : Int) :
    (win.setRect x y width height).state = win.state := by
  simp only [Window.setRect]
  split_ifs <;> rfl

theorem Window.setRect_border (win : Window) (x y width height : Int) :
    (win.setRect x y width height).border = win.border := by
  simp only [Window.setRect]
  split_ifs <;> rfl

theorem Window.setRect_desktop (win : Window) (x y width height : Int) :
    (win.setRect x y width height).desktop = win.desktop := by
  simp only [Window.setRect]
  split_ifs <;> rfl

/-- The border clamp only raises values below the minimum. -/
theorem le_ite_clamp {b : Bool} (hb : b = true) (m v : Int) :
    m ≤ if b = true ∧ v < m then m else v := by
  split_ifs with h
  · exact le_refl m
  · simp only [hb, true_and, not_lt] at h
    exact h

/-- For a bordered window, `SetRect` yields width ≥ 12. -/
theorem Window.setRect_w_ge (w : Window) (hw : w.border = true)
    (a b c d : Int) : 12 ≤ (w.setRect a b c d).rect.w := by
  rw [Window.setRect_rect]
  exact le_ite_clamp hw 12 c

/-- For a bordered window, `SetRect` yields height ≥ 2. -/
theorem Window.setRect_h_ge (w : Window) (hw : w.border = true)
    (a b c d : Int) : 2 ≤ (w.setRect a b c d).rect.h := by
  rw [Window.setRect_rect]
  exact le_ite_clamp hw 2 d

/-- Projection of `Window.setRestoredRect`: the restored rectangle always
receives the clamped values. -/
theorem Window.setRestoredRect_restored (win : Window) (x y width height : Int) :
    (win.setRestoredRect x y width height).restored =
      ⟨x, y, if win.border = true ∧ width < 12 then 12 else width,
        if win.border = true ∧ height < 2 then 2 else height⟩ := by
  by_cases hst : win.state = WindowState.Restored
  · unfold Window.setRestoredRect
    rw [if_pos hst, Window.setRect_restored, if_pos hst]
  · unfold Window.setRestoredRect
    rw [if_neg hst]

/-! ### Claims -/

/-- C1: for every bordered window, after any geometry-setting call
(`Window.SetRect`, `Window.SetRestoredRect`, or a manager state transition
that calls `SetRect`, i.e. a `SetState` with a different state on an
attached window), the resulting width is ≥ 12 and the resulting height is
≥ 2; out-of-range values are silently clamped, never rejected. -/
theorem C1_border_min_invariant (win : Window) (x y width height : Int)
    (hb : win.border = true) :
    (12 ≤ (win.setRect x y width height).rect.w ∧
      2 ≤ (win.setRect x y width height).rect.h) ∧
    (12 ≤ (win.setRestoredRect x y width height).restored.w ∧
      2 ≤ (win.setRestoredRect x y width height).restored.h) ∧
    (∀ s : WindowState, s ≠ win.state → win.desktop.isSome = true →
      12 ≤ (win.setState s).rect.w ∧ 2 ≤ (win.setState s).rect.h) := by
  refine ⟨⟨Window.setRect_w_ge win hb x y width height,
      Window.setRect_h_ge win hb x y width height⟩, ?_, ?_⟩
  · rw [Window.setRestoredRect_restored]
    exact ⟨le_ite_clamp hb 12 width, le_ite_clamp hb 2 height⟩
  · intro s hs hd
    unfold Window.setState
    rw [if_pos hd]
    unfold mgrSetState
    rw [if_neg hs]
    obtain ⟨inner, hinner⟩ := Option.isSome_iff_exists.mp hd
    cases s with
    | Restored =>
      refine ⟨Window.setRect_w_ge _ ?_ _ _ _ _, Window.setRect_h_ge _ ?_ _ _ _ _⟩ <;> exact hb
    | Minimized =>
      refine ⟨Window.setRect_w_ge _ ?_ _ _ _ _, Window.setRect_h_ge _ ?_ _ _ _ _⟩ <;> exact hb
    | Maximized =>
      dsimp only
      rw [hinner]
      refine ⟨Window.setRect_w_ge _ ?_ _ _ _ _, Window.setRect_h_ge _ ?_ _ _ _ _⟩ <;> exact hb

/-- Witness for C1 at a concrete bordered window and concrete
(out-of-range) geometry. -/
theorem C1_border_min_invariant_witness :
    sampleBorderedWin.border = true ∧
    WindowState.Maximized ≠ sampleBorderedWin.state ∧
    sampleBorderedWin.desktop.isSome = true ∧
    (12 ≤ (sampleBorderedWin.setRect 1 2 3 4).rect.w ∧
      2 ≤ (sampleBorderedWin.setRect 1 2 3 4).rect.h) ∧
    (12 ≤ (sampleBorderedWin.setRestoredRect 1 2 3 4).restored.w ∧
      2 ≤ (sampleBorderedWin.setRestoredRect 1 2 3 4).restored.h) ∧
    (12 ≤ (sampleBorderedWin.setState WindowState.Maximized).rect.w ∧
      2 ≤ (sampleBorderedWin.setState WindowState.Maximized).rect.h) := by
  have h := C1_border_min_invariant sampleBorderedWin 1 2 3 4 rfl
  exact ⟨rfl, by decide, rfl, h.1, h.2.1,
    h.2.2 WindowState.Maximized (by decide) rfl⟩

/-- A Minimize or Maximize transition preserves the restored-rectangle
invariant. -/
theorem C2Inv.step (R : Rect) (b : Bool) (dk : Option Rect) (w : Window)
    (s : WindowState)
    (hs : s = WindowState.Minimized ∨ s = WindowState.Maximized)
    (h : C2Inv R b dk w) : C2Inv R b dk (w.setState s) := by
  obtain ⟨hres, hbor, hdesk, hrR, hrN⟩ := h
  have hsne : s ≠ WindowState.Restored := by
    cases hs with
    | inl h1 => rw [h1]; intro hc; cases hc
    | inr h1 => rw [h1]; intro hc; cases hc
  unfold Window.setState
  cases hdk : w.desktop with
  | none =>
    rw [hdk] at hdesk
    simp only [hdk, Option.isSome_none, Bool.false_eq_true, if_false]
    refine ⟨hres, hbor, by rw [← hdesk], ?_, ?_⟩
    · intro hc
      exact absurd hc hsne
    · intro _
      exact hrN hdesk.symm ▸ hrN (by rw [← hdesk])
  | some d =>
    rw [hdk] at hdesk
    simp only [hdk, Option.isSome_some, if_true]
    unfold mgrSetState
    by_cases heq : s = w.state
    · rw [if_pos heq]
      exact ⟨hres, hbor, by rw [hdk, hdesk], fun hc => hrR hc, fun hc => hrN hc⟩
    · rw [if_neg heq]
      cases hs with
      | inl h1 =>
        subst h1
        dsimp only
        refine ⟨?_, ?_, ?_, ?_, ?_⟩
        · rw [Window.setRect_restored]
          rw [if_neg (by intro hc; cases hc)]
          exact hres
        · rw [Window.setRect_border]; exact hbor
        · rw [Window.setRect_desktop]; rw [hdk, hdesk]
        · rw [Window.setRect_state]
          intro hc
          cases hc
        · intro hc
          rw [← hdesk] at hc
          cases hc
      | inr h1 =>
        subst h1
        rw [show ({ w with state := WindowState.Maximized } : Window).desktop
            = w.desktop from rfl, hdk]
        dsimp only
        refine ⟨?_, ?_, ?_, ?_, ?_⟩
        · rw [Window.setRect_restored]
          rw [if_neg (by intro hc; cases hc)]
          exact hres
        · rw [Window.setRect_border]; exact hbor
        · rw [Window.setRect_desktop]; exact hdesk
        · rw [Window.setRect_state]
          intro hc
          cases hc
        · intro hc
          rw [← hdesk] at hc
          cases hc

/-- A whole run of Minimize/Maximize transitions preserves the
restored-rectangle invariant. -/
theorem C2Inv.fold (R : Rect) (b : Bool) (dk : Option Rect) :
    ∀ ss : List WindowState,
      (∀ s ∈ ss, s = WindowState.Minimized ∨ s = WindowState.Maximized) →
      ∀ w : Window, C2Inv R b dk w → C2Inv R b dk (ss.foldl Window.setState w) := by
  intro ss
  induction ss with
  | nil => intro _ w h; exact h
  | cons s ts ih =>
    intro hss w h
    exact ih (fun t ht => hss t (List.mem_cons_of_mem s ht)) (w.setState s)
      (C2Inv.step R b dk w s (hss s (List.mem_cons_self s ts)) h)

/-- Restoring a window that satisfies the invariant (with a clamp-stable
cached rectangle) reproduces exactly the cached rectangle. -/
theorem C2Inv.restore (R : Rect) (b : Bool) (dk : Option Rect) (w : Window)
    (h : C2Inv R b dk w)
    (hclamp : b = true → 12 ≤ R.w ∧ 2 ≤ R.h) :
    (w.setState WindowState.Restored).rect = R := by
  obtain ⟨hres, hbor, hdesk, hrR, hrN⟩ := h
  unfold Window.setState
  cases hdk : w.desktop with
  | none =>
    rw [hdk] at hdesk
    simp only [hdk, Option.isSome_none, Bool.false_eq_true, if_false]
    exact hrN hdesk.symm
  | some d =>
    rw [hdk] at hdesk
    simp only [hdk, Option.isSome_some, if_true]
    unfold mgrSetState
    by_cases heq : WindowState.Restored = w.state
    · rw [if_pos heq]
      exact hrR heq.symm
    · rw [if_neg heq]
      dsimp only
      rw [Window.setRect_rect]
      obtain ⟨Rx, Ry, Rw, Rh⟩ := R
      rw [show ({ w with state := WindowState.Restored } : Window).restored = w.restored from rfl,
        hres]
      dsimp only
      rw [show ({ w with state := WindowState.Restored } : Window).border = w.border from rfl,
        hbor]
      cases b with
      | false =>
        rw [if_neg (by simp), if_neg (by simp)]
      | true =>
        have hc := hclamp rfl
        dsimp only at hc
        rw [if_neg (by simp only [true_and, not_lt]; omega),
          if_neg (by simp only [true_and, not_lt]; omega)]

/-- C2: for every window, the restored rectangle equals the last rectangle
set while the window was in the `Restored` state; it is unchanged by any
intervening sequence of Minimize/Maximize transitions; and setting the
state back to `Restored` applies exactly that cached rectangle as the
window's geometry. -/
theorem C2_restored_rect_cycle (win : Window) (x y wd ht : Int)
    (ss : List WindowState)
    (hst : win.state = WindowState.Restored)
    (hss : ∀ s ∈ ss, s = WindowState.Minimized ∨ s = WindowState.Maximized) :
    (win.setRect x y wd ht).restored = (win.setRect x y wd ht).rect ∧
    (ss.foldl Window.setState (win.setRect x y wd ht)).restored =
      (win.setRect x y wd ht).restored ∧
    ((ss.foldl Window.setState (win.setRect x y wd ht)).setState
        WindowState.Restored).rect = (win.setRect x y wd ht).restored := by
  have hcache : (win.setRect x y wd ht).restored = (win.setRect x y wd ht).rect := by
    rw [Window.setRect_restored, Window.setRect_rect, if_pos hst]
  have hinv1 : C2Inv (win.setRect x y wd ht).restored win.border win.desktop
      (win.setRect x y wd ht) := by
    refine ⟨rfl, Window.setRect_border win x y wd ht,
      Window.setRect_desktop win x y wd ht, ?_, ?_⟩
    · intro _; exact hcache.symm
    · intro _; exact hcache.symm
  have hclamp : win.border = true →
      12 ≤ (win.setRect x y wd ht).restored.w ∧
        2 ≤ (win.setRect x y wd ht).restored.h := by
    intro hb
    rw [Window.setRect_restored, if_pos hst]
    exact ⟨le_ite_clamp hb 12 wd, le_ite_clamp hb 2 ht⟩
  have hinv2 := C2Inv.fold (win.setRect x y wd ht).restored win.border
    win.desktop ss hss (win.setRect x y wd ht) hinv1
  exact ⟨hcache, hinv2.1,
    C2Inv.restore (win.setRect x y wd ht).restored win.border win.desktop
      (ss.foldl Window.setState (win.setRect x y wd ht)) hinv2 hclamp⟩

/-- Witness for C2: the spec's scenario — an attached window, geometry
(10, 10, 20, 10) set while `Restored`, then Maximize, then Restore,
reproduces exactly (10, 10, 20, 10). -/
theorem C2_restored_rect_cycle_witness :
    sampleAttachedWin.state = WindowState.Restored ∧
    (∀ s ∈ [WindowState.Maximized],
      s = WindowState.Minimized ∨ s = WindowState.Maximized) ∧
    (([WindowState.Maximized].foldl Window.setState
        (sampleAttachedWin.setRect 10 10 20 10)).setState
        WindowState.Restored).rect = ⟨10, 10, 20, 10⟩ := by
  have h := C2_restored_rect_cycle sampleAttachedWin 10 10 20 10
    [WindowState.Maximized] rfl (by decide)
  refine ⟨rfl, by decide, ?_⟩
  rw [h.2.2]
  decide

/-- The bring-to-front loop moves the first occurrence of `w` to the end,
keeping everything else in order. -/
theorem btfLoop_eq_erase (w : Nat) :
    ∀ wins : List Nat, w ∈ wins → btfLoop wins w = wins.erase w ++ [w] := by
  intro wins
  induction wins with
  | nil => intro h; cases h
  | cons x xs ih =>
    intro hmem
    by_cases hx : x = w
    · subst hx
      rw [show btfLoop (x :: xs) x = if x = x then xs ++ [x] else x :: btfLoop xs x from rfl,
        if_pos rfl, List.erase_cons_head]
    · have hmem2 : w ∈ xs := by
        cases hmem with
        | head => exact absurd rfl hx
        | tail _ h => exact h
      rw [show btfLoop (x :: xs) w = if x = w then xs ++ [w] else x :: btfLoop xs w from rfl,
        if_neg hx, ih hmem2, List.erase_cons_tail]
      · rfl
      · simp [hx]

/-- Erasing the last element of a duplicate-free list drops exactly it. -/
theorem erase_append_last (w : Nat) :
    ∀ l : List Nat, (l ++ [w]).Nodup → (l ++ [w]).erase w = l := by
  intro l
  induction l with
  | nil => intro _; exact List.erase_cons_head w []
  | cons x xs ih =>
    intro hnd
    have hxw : x ≠ w := by
      intro hc
      subst hc
      have := (List.nodup_cons.mp hnd).1
      exact this (by simp)
    rw [show (x :: xs) ++ [w] = x :: (xs ++ [w]) from rfl, List.erase_cons_tail]
    · rw [ih (List.nodup_cons.mp hnd).2]
    · simp [hxw]

/-- C6: for every window attached to a desktop, `BringToFront` makes it
the last (topmost) entry of the stack while preserving the relative order
of all other windows; a window already topmost is a stable no-op; and the
operation is idempotent. -/
theorem C6_bring_to_front (wins : List Nat) (w : Nat)
    (hmem : w ∈ wins) (hnd : wins.Nodup) :
    bringToFront wins w = wins.erase w ++ [w] ∧
    (bringToFront wins w).getLast? = some w ∧
    (wins.getLast? = some w → bringToFront wins w = wins) ∧
    bringToFront (bringToFront wins w) w = bringToFront wins w := by
  have hlen : 0 < wins.length := List.length_pos.mpr (by rintro rfl; cases hmem)
  have hfront : ∀ l : List Nat, l.getLast? = some w → bringToFront l w = l := by
    intro l hg
    unfold bringToFront
    rw [if_neg]
    intro hc
    exact hc.2 hg
  have hmain : bringToFront wins w = wins.erase w ++ [w] := by
    by_cases hg : wins.getLast? = some w
    · rw [hfront wins hg]
      have hne : wins ≠ [] := by rintro rfl; cases hg
      have hlast : wins.getLast hne = w := by
        rw [List.getLast?_eq_getLast wins hne] at hg
        exact Option.some_injective _ hg
      have hdecomp : wins.dropLast ++ [w] = wins := by
        rw [← hlast]
        exact List.dropLast_append_getLast hne
      have hnd2 : (wins.dropLast ++ [w]).Nodup := by rw [hdecomp]; exact hnd
      have herase : wins.erase w = wins.dropLast := by
        conv_lhs => rw [← hdecomp]
        exact erase_append_last w wins.dropLast hnd2
      rw [herase, hdecomp]
    · unfold bringToFront
      rw [if_pos ⟨hlen, hg⟩]
      exact btfLoop_eq_erase w wins hmem
  have hlast2 : (bringToFront wins w).getLast? = some w := by
    rw [hmain]
    exact List.getLast?_concat _
  exact ⟨hmain, hlast2, hfront wins, hfront _ hlast2⟩

/-- Witness for C6 on the concrete stack [1, 2, 3] with window 2. -/
theorem C6_bring_to_front_witness :
    (2 ∈ [1, 2, 3] ∧ ([1, 2, 3] : List Nat).Nodup) ∧
    bringToFront [1, 2, 3] 2 = [1, 3, 2] ∧
    bringToFront (bringToFront [1, 2, 3] 2) 2 = bringToFront [1, 2, 3] 2 := by
  have h := C6_bring_to_front [1, 2, 3] 2 (by decide) (by decide)
  exact ⟨⟨by decide, by decide⟩, by rw [h.1]; decide, h.2.2.2⟩

/-- `PrevWindow` of the i-th stack entry is the (i+1 mod n)-th entry. -/
theorem prevWindow_get (wins : List Nat) (hnd : wins.Nodup)
    (hn : 2 ≤ wins.length) (i : Nat) (hi : i < wins.length) :
    prevWindow (some wins) (wins.get ⟨i, hi⟩) =
      wins.get? ((i + 1) % wins.length) := by
  unfold prevWindow
  have hidx : wins.indexOf (wins.get ⟨i, hi⟩) = i := List.get_indexOf hnd ⟨i, hi⟩
  dsimp only
  rw [hidx, if_neg (by omega : ¬wins.length ≤ 1), if_pos hi]
  by_cases hlast : i = wins.length - 1
  · rw [if_pos hlast, show (i + 1) % wins.length = 0 from by
      rw [show i + 1 = wins.length from by omega]
      exact Nat.mod_self _]
  · rw [if_neg hlast, Nat.mod_eq_of_lt (by omega)]

/-- `NextWindow` of the i-th stack entry is the (i-1 mod n)-th entry. -/
theorem nextWindow_get (wins : List Nat) (hnd : wins.Nodup)
    (hn : 2 ≤ wins.length) (i : Nat) (hi : i < wins.length) :
    nextWindow (some wins) (wins.get ⟨i, hi⟩) =
      wins.get? ((i + (wins.length - 1)) % wins.length) := by
  unfold nextWindow
  have hidx : wins.indexOf (wins.get ⟨i, hi⟩) = i := List.get_indexOf hnd ⟨i, hi⟩
  dsimp only
  rw [hidx, if_neg (by omega : ¬wins.length ≤ 1), if_pos hi]
  by_cases h0 : i = 0
  · subst h0
    rw [if_pos rfl]
    have hne : wins ≠ [] := by
      intro hc
      rw [hc] at hn
      simp at hn
    have hlt : wins.length - 1 < wins.length := by omega
    rw [List.getLast?_eq_getLast wins hne,
      show (0 + (wins.length - 1)) % wins.length = wins.length - 1 from by
        rw [Nat.zero_add, Nat.mod_eq_of_lt hlt],
      List.get?_eq_get hlt]
    congr 1
    rw [List.getLast_eq_getElem]
    rfl
  · rw [if_neg h0]
    have h1 : i + (wins.length - 1) = wins.length + (i - 1) := by omega
    rw [h1, Nat.add_mod_left, Nat.mod_eq_of_lt (by omega)]

/-- Iterating `PrevWindow` walks the stack cyclically upward. -/
theorem iterPrev_get (wins : List Nat) (hnd : wins.Nodup)
    (hn : 2 ≤ wins.length) :
    ∀ (k i : Nat) (hi : i < wins.length),
      iterPrev wins k (wins.get ⟨i, hi⟩) =
        wins.get? ((i + k) % wins.length) := by
  intro k
  induction k with
  | zero =>
    intro i hi
    rw [show iterPrev wins 0 (wins.get ⟨i, hi⟩) = some (wins.get ⟨i, hi⟩) from rfl,
      Nat.add_zero, Nat.mod_eq_of_lt hi, List.get?_eq_get hi]
  | succ k ih =>
    intro i hi
    have hj : (i + 1) % wins.length < wins.length := Nat.mod_lt _ (by omega)
    rw [show iterPrev wins (k + 1) (wins.get ⟨i, hi⟩)
        = (match prevWindow (some wins) (wins.get ⟨i, hi⟩) with
           | none => none
           | some w2 => iterPrev wins k w2) from rfl,
      prevWindow_get wins hnd hn i hi, List.get?_eq_get hj]
    dsimp only
    rw [ih ((i + 1) % wins.length) hj]
    congr 1
    rw [Nat.mod_add_mod]
    congr 1
    omega

/-- C7: for every window on a desktop stack of size ≥ 2, `NextWindow`
followed by `PrevWindow` (and vice versa) returns the starting window; the
windows form a single cycle whose length equals the stack size (iterating
`PrevWindow` returns to the start after exactly `n` steps, not earlier,
and reaches every window); and both calls return none when the window is
unattached or the stack size is ≤ 1. -/
theorem C7_next_prev_cycle (wins : List Nat) (hnd : wins.Nodup) :
    (∀ w : Nat, nextWindow none w = none ∧ prevWindow none w = none) ∧
    (wins.length ≤ 1 → ∀ w : Nat,
      nextWindow (some wins) w = none ∧ prevWindow (some wins) w = none) ∧
    (2 ≤ wins.length → ∀ w ∈ wins,
      (nextWindow (some wins) w).bind (prevWindow (some wins)) = some w ∧
      (prevWindow (some wins) w).bind (nextWindow (some wins)) = some w ∧
      iterPrev wins wins.length w = some w ∧
      (∀ k : Nat, 0 < k → k < wins.length → iterPrev wins k w ≠ some w) ∧
      (∀ w2 ∈ wins, ∃ k : Nat, k < wins.length ∧ iterPrev wins k w = some w2)) := by
  refine ⟨fun w => ⟨rfl, rfl⟩, ?_, ?_⟩
  · intro hlen w
    constructor
    · unfold nextWindow
      dsimp only
      rw [if_pos hlen]
    · unfold prevWindow
      dsimp only
      rw [if_pos hlen]
  · intro hn w hw
    have hlt0 : wins.indexOf w < wins.length := List.indexOf_lt_length.mpr hw
    obtain ⟨i, hi, rfl⟩ : ∃ (i : Nat) (hi : i < wins.length), wins.get ⟨i, hi⟩ = w :=
      ⟨wins.indexOf w, hlt0, List.indexOf_get hlt0⟩
    clear hlt0 hw
    have hnpos : 0 < wins.length := by omega
    refine ⟨?_, ?_, ?_, ?_, ?_⟩
    · rw [nextWindow_get wins hnd hn i hi]
      have hjlt : (i + (wins.length - 1)) % wins.length < wins.length :=
        Nat.mod_lt _ hnpos
      rw [List.get?_eq_get hjlt, Option.some_bind,
        prevWindow_get wins hnd hn _ hjlt, Nat.mod_add_mod,
        show i + (wins.length - 1) + 1 = i + wins.length from by omega,
        Nat.add_mod_right, Nat.mod_eq_of_lt hi, List.get?_eq_get hi]
    · rw [prevWindow_get wins hnd hn i hi]
      have hjlt : (i + 1) % wins.length < wins.length := Nat.mod_lt _ hnpos
      rw [List.get?_eq_get hjlt, Option.some_bind,
        nextWindow_get wins hnd hn _ hjlt, Nat.mod_add_mod,
        show i + 1 + (wins.length - 1) = i + wins.length from by omega,
        Nat.add_mod_right, Nat.mod_eq_of_lt hi, List.get?_eq_get hi]
    · rw [iterPrev_get wins hnd hn wins.length i hi, Nat.add_mod_right,
        Nat.mod_eq_of_lt hi, List.get?_eq_get hi]
    · intro k hk0 hkn hc
      rw [iterPrev_get wins hnd hn k i hi] at hc
      have hjlt : (i + k) % wins.length < wins.length := Nat.mod_lt _ hnpos
      rw [List.get?_eq_get hjlt] at hc
      have heq : (⟨(i + k) % wins.length, hjlt⟩ : Fin wins.length) = ⟨i, hi⟩ :=
        (List.Nodup.get_inj_iff hnd).mp (Option.some_injective _ hc)
      have hveq : (i + k) % wins.length = i := congrArg Fin.val heq
      by_cases hsum : i + k < wins.length
      · rw [Nat.mod_eq_of_lt hsum] at hveq
        omega
      · rw [Nat.mod_eq_sub_mod (by omega),
          Nat.mod_eq_of_lt (by omega)] at hveq
        omega
    · intro w2 hw2
      have hlt2 : wins.indexOf w2 < wins.length := List.indexOf_lt_length.mpr hw2
      obtain ⟨i2, hi2, rfl⟩ :
          ∃ (i2 : Nat) (hi2 : i2 < wins.length), wins.get ⟨i2, hi2⟩ = w2 :=
        ⟨wins.indexOf w2, hlt2, List.indexOf_get hlt2⟩
      clear hlt2 hw2
      refine ⟨(i2 + wins.length - i) % wins.length, Nat.mod_lt _ hnpos, ?_⟩
      rw [iterPrev_get wins hnd hn _ i hi]
      rcases le_or_lt i i2 with hle | hlt
      · rw [show i2 + wins.length - i = (i2 - i) + wins.length from by omega,
          Nat.add_mod_right,
          Nat.mod_eq_of_lt (show i2 - i < wins.length from by omega),
          show i + (i2 - i) = i2 from by omega,
          Nat.mod_eq_of_lt hi2, List.get?_eq_get hi2]
      · rw [Nat.mod_eq_of_lt (show i2 + wins.length - i < wins.length from by omega),
          show i + (i2 + wins.length - i) = i2 + wins.length from by omega,
          Nat.add_mod_right, Nat.mod_eq_of_lt hi2, List.get?_eq_get hi2]

/-- Witness for C7 on the concrete stack [1, 2, 3] with window 2. -/
theorem C7_next_prev_cycle_witness :
    ([1, 2, 3] : List Nat).Nodup ∧ 2 ≤ ([1, 2, 3] : List Nat).length ∧
    (2 ∈ [1, 2, 3] ∧
      (nextWindow (some [1, 2, 3]) 2).bind (prevWindow (some [1, 2, 3])) = some 2 ∧
      iterPrev [1, 2, 3] 3 2 = some 2) ∧
    nextWindow (some [1]) 2 = none ∧ nextWindow none 2 = none := by
  have h := C7_next_prev_cycle [1, 2, 3] (by decide)
  have h3 := h.2.2 (by decide) 2 (by decide)
  refine ⟨by decide, by decide, ⟨by decide, h3.1, h3.2.2.1⟩, ?_, (h.1 2).1⟩
  have h1 := C7_next_prev_cycle [1] (by decide)
  exact ((h1.2.1 (by decide)) 2).1

/-- The routing loop stops at the first consuming window: windows before
it are offered (and decline), windows after it are never reached. -/
theorem routeWins_hit (wh : Nat → Bool) :
    ∀ pre : List Nat, (∀ x ∈ pre, wh x = false) →
      ∀ (w : Nat), wh w = true → ∀ rest : List Nat,
        routeWins wh (pre ++ w :: rest) = (pre ++ [w], some w) := by
  intro pre
  induction pre with
  | nil =>
    intro _ w hw rest
    rw [show ([] : List Nat) ++ w :: rest = w :: rest from rfl]
    unfold routeWins
    rw [hw]
    rfl
  | cons x xs ih =>
    intro hpre w hw rest
    have hx : wh x = false := hpre x (List.mem_cons_self x xs)
    rw [show (x :: xs) ++ w :: rest = x :: (xs ++ w :: rest) from rfl]
    unfold routeWins
    rw [hx]
    dsimp only
    rw [ih (fun t ht => hpre t (List.mem_cons_of_mem x ht)) w hw rest]
    rfl

/-- When no window consumes, the routing loop offers the event to the
whole list and reports no consumer. -/
theorem routeWins_miss (wh : Nat → Bool) :
    ∀ l : List Nat, (∀ x ∈ l, wh x = false) → routeWins wh l = (l, none) := by
  intro l
  induction l with
  | nil => intro _; rfl
  | cons x xs ih =>
    intro hl
    have hx : wh x = false := hl x (List.mem_cons_self x xs)
    unfold routeWins
    rw [hx]
    dsimp only
    rw [ih (fun t ht => hl t (List.mem_cons_of_mem x ht))]
    rfl

/-- C3: for every desktop-attached mouse event: a position outside the
desktop's rectangle is not consumed and no window (nor the client) is
offered the event; otherwise windows are offered the event in reverse
stack order (topmost first), the first consuming window stops propagation
(windows below it are never offered the event), and the desktop-level
client content is offered the event only if no window consumed it. -/
theorem C3_desktop_mouse_routing (drect : Rect) (wins : List Nat)
    (wh : Nat → Bool) (hasClient clientConsumes : Bool) (px py : Int) :
    (drect.inRect px py = false →
      desktopMouse drect wins wh hasClient clientConsumes px py =
        (false, none, [], false)) ∧
    (drect.inRect px py = true →
      ∀ (l1 : List Nat) (w : Nat) (l2 : List Nat),
        wins = l1 ++ w :: l2 → wh w = true → (∀ w2 ∈ l2, wh w2 = false) →
        desktopMouse drect wins wh hasClient clientConsumes px py =
          (true, some w, l2.reverse ++ [w], false)) ∧
    (drect.inRect px py = true → (∀ w ∈ wins, wh w = false) →
      desktopMouse drect wins wh hasClient clientConsumes px py =
        (if hasClient then clientConsumes else false, none, wins.reverse,
          hasClient)) := by
  refine ⟨?_, ?_, ?_⟩
  · intro hout
    unfold desktopMouse
    rw [if_pos (by rw [hout]; intro hc; cases hc)]
  · intro hin l1 w l2 hsplit hw hl2
    unfold desktopMouse
    rw [if_neg (by rw [hin]; intro hc; exact hc rfl)]
    have hrev : wins.reverse = l2.reverse ++ w :: l1.reverse := by
      rw [hsplit, List.reverse_append, List.reverse_cons, List.append_assoc]
      rfl
    rw [hrev, routeWins_hit wh l2.reverse
      (fun t ht => hl2 t (List.mem_reverse.mp ht)) w hw l1.reverse]
  · intro hin hnone
    unfold desktopMouse
    rw [if_neg (by rw [hin]; intro hc; exact hc rfl)]
    rw [routeWins_miss wh wins.reverse
      (fun t ht => hnone t (List.mem_reverse.mp ht))]
    cases hasClient <;> rfl

/-- Witness for C3 on a desktop rectangle (0,0,80,24) with stack
[1, 2, 3] where only window 2 consumes: inside events go to window 2
(window 1, below it, is never offered the event), outside events touch
nothing, and with no consuming window the client is offered the event. -/
theorem C3_desktop_mouse_routing_witness :
    (Rect.inRect ⟨0, 0, 80, 24⟩ 100 5 = false ∧
      desktopMouse ⟨0, 0, 80, 24⟩ [1, 2, 3] (fun w => w == 2) true true 100 5 =
        (false, none, [], false)) ∧
    (Rect.inRect ⟨0, 0, 80, 24⟩ 5 5 = true ∧
      desktopMouse ⟨0, 0, 80, 24⟩ [1, 2, 3] (fun w => w == 2) true true 5 5 =
        (true, some 2, [3, 2], false)) ∧
    desktopMouse ⟨0, 0, 80, 24⟩ [1, 2, 3] (fun _ => false) true true 5 5 =
      (true, none, [3, 2, 1], true) := by
  have h1 := (C3_desktop_mouse_routing ⟨0, 0, 80, 24⟩ [1, 2, 3]
    (fun w => w == 2) true true 100 5).1 (by decide)
  have h2 := (C3_desktop_mouse_routing ⟨0, 0, 80, 24⟩ [1, 2, 3]
    (fun w => w == 2) true true 5 5).2.1 (by decide) [1] 2 [3] rfl
    (by decide) (by decide)
  have h3 := (C3_desktop_mouse_routing ⟨0, 0, 80, 24⟩ [1, 2, 3]
    (fun _ => false) true true 5 5).2.2 (by decide) (by decide)
  exact ⟨⟨by decide, h1⟩, ⟨by decide, h2⟩, h3⟩

/-- C4 counterexample: the claim's "width and height are unchanged" fails
on a reachable window.  `NewWindow` + `SetRect(0,0,5,1)` + `SetBorder(true)`
(which does not clamp) gives a bordered 5×1 window; a caption grab at
(0, 0) starts a move; the next mouse-move to (5, 3) goes through
`SetRect`, whose border clamp changes the size from 5×1 to 12×2 even
though the move passes the old width and height unchanged. -/
theorem C4_move_size_counterexample :
    thinBorderedWin.border = true ∧
    thinBorderedWin.rect = ⟨0, 0, 5, 1⟩ ∧
    thinMovingWin.moving = true ∧
    thinMovingWin.moveX = 0 ∧ thinMovingWin.moveY = 0 ∧
    thinMovingWin.rect = ⟨0, 0, 5, 1⟩ ∧
    (defaultMouseHandler thinMovingWin MouseAction.move 5 3 true).1.rect =
      ⟨5, 3, 12, 2⟩ ∧
    ¬((defaultMouseHandler thinMovingWin MouseAction.move 5 3 true).1.rect.w =
        thinMovingWin.rect.w) := by
  decide

/-- C4 (amended): while a move drag is active on a window, each
mouse-move event repositions the window so that the grab offset recorded
at press time stays under the pointer (new top-left = pointer minus grab
offset) and consumes the event; the width and height are unchanged
provided the current geometry already satisfies the border minimums
(otherwise `SetRect`'s clamp expands them, as the counterexample shows).
A release while moving clears the drag flags and consumes, and once
`moving`/`resizing` are clear a further mouse-move has no effect and is
not consumed. -/
theorem C4_move_drag (win : Window) (px py : Int) (b1 : Bool)
    (hmov : win.moving = true)
    (hmin : win.border = true → 12 ≤ win.rect.w ∧ 2 ≤ win.rect.h) :
    (defaultMouseHandler win MouseAction.move px py b1).1.rect =
      ⟨px - win.moveX, py - win.moveY, win.rect.w, win.rect.h⟩ ∧
    (defaultMouseHandler win MouseAction.move px py b1).2.1 = true ∧
    defaultMouseHandler win MouseAction.leftUp px py b1 =
      ({ win with moving := false, resizing := 0 }, true, false) ∧
    (∀ (w2 : Window) (qx qy : Int) (b2 : Bool),
      w2.moving = false → w2.resizing = 0 →
      defaultMouseHandler w2 MouseAction.move qx qy b2 = (w2, false, false)) := by
  have hmove : defaultMouseHandler win MouseAction.move px py b1 =
      (win.setRect (win.rect.x + ((px - win.rect.x) - win.moveX))
        (win.rect.y + ((py - win.rect.y) - win.moveY)) win.rect.w win.rect.h,
        true, true) := by
    unfold defaultMouseHandler
    rw [if_neg (fun hc => hc.2.1 hmov)]
    dsimp only
    rw [if_pos hmov, if_pos rfl]
  refine ⟨?_, ?_, ?_, ?_⟩
  · rw [hmove]
    dsimp only
    rw [Window.setRect_rect]
    have hx : win.rect.x + ((px - win.rect.x) - win.moveX) = px - win.moveX := by
      ring
    have hy : win.rect.y + ((py - win.rect.y) - win.moveY) = py - win.moveY := by
      ring
    rw [hx, hy]
    cases hbc : win.border with
    | false =>
      rw [if_neg (by rintro ⟨hc, _⟩; cases hc),
        if_neg (by rintro ⟨hc, _⟩; cases hc)]
    | true =>
      have hm := hmin hbc
      rw [if_neg (by rintro ⟨_, hc⟩; omega),
        if_neg (by rintro ⟨_, hc⟩; omega)]
  · rw [hmove]
  · unfold defaultMouseHandler
    rw [if_neg (fun hc => hc.2.1 hmov)]
    dsimp only
    rw [if_pos (Or.inl hmov), if_pos rfl]
  · intro w2 qx qy b2 hm2 hr2
    unfold defaultMouseHandler
    by_cases hin : w2.rect.inRect qx qy = true
    · rw [if_neg (fun hc => hc.1 hin)]
      simp [hm2, hr2]
    · have hmov2 : ¬(w2.moving = true) := by
        rw [hm2]
        intro hc
        cases hc
      have hcond : ¬(w2.rect.inRect qx qy = true) ∧ ¬(w2.moving = true) ∧
          w2.resizing = 0 :=
        ⟨hin, hmov2, hr2⟩
      rw [if_pos hcond]

/-- Witness for C4: the spec's scenario — a resizable bordered window at
(0,0,30,15), caption press at (3, 0), then a move to (8, 3) (5 cells
right, 3 down) relocates it to (5,3,30,15); a release then a further move
has no effect. -/
theorem C4_move_drag_witness :
    pressedScenarioWin.moving = true ∧
    (pressedScenarioWin.border = true →
      12 ≤ pressedScenarioWin.rect.w ∧ 2 ≤ pressedScenarioWin.rect.h) ∧
    (defaultMouseHandler pressedScenarioWin MouseAction.move 8 3 true).1.rect =
      ⟨5, 3, 30, 15⟩ ∧
    (let released :=
      (defaultMouseHandler pressedScenarioWin MouseAction.leftUp 8 3 true).1
    defaultMouseHandler released MouseAction.move 20 9 true =
      (released, false, false)) := by
  have h := C4_move_drag pressedScenarioWin 8 3 true (by decide)
    (fun _ => by decide)
  refine ⟨by decide, fun _ => by decide, ?_, ?_⟩
  · rw [h.1]
    decide
  · exact h.2.2.2 _ 20 9 true (by decide) (by decide)

/-- Setting a state different from the current one stores exactly that
state (all transition branches go through `SetRect`, which never touches
the state field). -/
theorem Window.setState_state (win : Window) (s : WindowState)
    (hs : s ≠ win.state) : (win.setState s).state = s := by
  unfold Window.setState
  by_cases hd : win.desktop.isSome = true
  · rw [if_pos hd]
    unfold mgrSetState
    rw [if_neg hs]
    cases s with
    | Restored => exact Window.setRect_state _ _ _ _ _
    | Minimized => exact Window.setRect_state _ _ _ _ _
    | Maximized =>
      dsimp only
      cases hdk : win.desktop with
      | some inner =>
        dsimp only
        exact Window.setRect_state _ _ _ _ _
      | none => rfl
  · rw [if_neg hd]

/-- C5 counterexample: the toggle requires a *bordered* (and attached)
window — the handler's caption test is `win.border && atY == y`.  A
borderless resizable attached window in the `Restored` state receives a
double-click in its top row (its drawn caption row) and nothing happens:
the state stays `Restored` instead of becoming `Maximized`, and the event
is not consumed. -/
theorem C5_double_click_counterexample :
    borderlessResizableWin.resizable = true ∧
    borderlessResizableWin.desktop.isSome = true ∧
    borderlessResizableWin.border = false ∧
    borderlessResizableWin.state = WindowState.Restored ∧
    Rect.inRect borderlessResizableWin.rect 1 0 = true ∧
    borderlessResizableWin.rect.y = 0 ∧
    defaultMouseHandler borderlessResizableWin MouseAction.leftDoubleClick 1 0 true =
      (borderlessResizableWin, false, false) := by
  decide

/-- C5 (amended): for every resizable *bordered* window *attached to a
desktop*, a double-click landing in its caption row (inside the window, on
its top row) toggles the window state through the manager: Minimized or
Maximized become Restored, and Restored becomes Maximized; the event is
consumed (without capture). -/
theorem C5_double_click_toggle (win : Window) (px py : Int) (b1 : Bool)
    (hr : win.resizable = true) (hb : win.border = true)
    (hd : win.desktop.isSome = true)
    (hin : win.rect.inRect px py = true) (hy : py = win.rect.y) :
    defaultMouseHandler win MouseAction.leftDoubleClick px py b1 =
      (win.setState (match win.state with
        | WindowState.Restored => WindowState.Maximized
        | WindowState.Minimized => WindowState.Restored
        | WindowState.Maximized => WindowState.Restored), true, false) ∧
    (defaultMouseHandler win MouseAction.leftDoubleClick px py b1).1.state =
      (match win.state with
        | WindowState.Restored => WindowState.Maximized
        | WindowState.Minimized => WindowState.Restored
        | WindowState.Maximized => WindowState.Restored) := by
  have hcap : win.border = true ∧ win.rect.y ≤ py ∧ py < win.rect.y + 1 :=
    ⟨hb, le_of_eq hy.symm, by rw [hy]; omega⟩
  have hmain : defaultMouseHandler win MouseAction.leftDoubleClick px py b1 =
      (win.setState (match win.state with
        | WindowState.Restored => WindowState.Maximized
        | WindowState.Minimized => WindowState.Restored
        | WindowState.Maximized => WindowState.Restored), true, false) := by
    unfold defaultMouseHandler
    rw [if_neg (fun hc => hc.1 hin)]
    dsimp only
    rw [if_neg (by intro hc; cases hc), if_pos rfl, if_pos ⟨hr, hd⟩,
      if_pos hcap]
    cases hst : win.state <;> rfl
  refine ⟨hmain, ?_⟩
  rw [hmain]
  dsimp only
  apply Window.setState_state
  cases hst : win.state <;> decide

/-- Witness for C5: the spec's scenario on a resizable bordered attached
window — a double-click on the caption toggles Restored → Maximized, and
a further double-click on the (new) caption toggles back to Restored. -/
theorem C5_double_click_toggle_witness :
    (scenarioWin.resizable = true ∧ scenarioWin.border = true ∧
      scenarioWin.desktop.isSome = true ∧
      Rect.inRect scenarioWin.rect 1 0 = true ∧ (0 : Int) = scenarioWin.rect.y ∧
      scenarioWin.state = WindowState.Restored) ∧
    (defaultMouseHandler scenarioWin MouseAction.leftDoubleClick 1 0 true).1.state =
      WindowState.Maximized ∧
    (defaultMouseHandler
      (defaultMouseHandler scenarioWin MouseAction.leftDoubleClick 1 0 true).1
      MouseAction.leftDoubleClick 1 0 true).1.state = WindowState.Restored := by
  have h1 := C5_double_click_toggle scenarioWin 1 0 true (by decide) (by decide)
    (by decide) (by decide) (by decide)
  have h2 := C5_double_click_toggle
    (defaultMouseHandler scenarioWin MouseAction.leftDoubleClick 1 0 true).1
    1 0 true (by decide) (by decide) (by decide) (by decide) (by decide)
  refine ⟨by decide, ?_, ?_⟩
  · rw [h1.2]
    decide
  · rw [h2.2]
    decide

/-- C8 counterexample: the claim's "clears the removed window's weak
back-reference" is false — `RemoveWindow` never touches `win.desktop`.
After removing window 5 from its desktop, the stack is empty and the
`Removed` hook fired, but the back-reference still points at desktop 0
(`GetDesktop` does not return none). -/
theorem C8_backref_counterexample :
    5 ∈ sampleWorld.stackOf 0 ∧
    (removeWindow sampleWorld 0 5).stackOf 0 = [] ∧
    (removeWindow sampleWorld 0 5).log = [Hook.removed 5] ∧
    (removeWindow sampleWorld 0 5).backref 5 = some 0 ∧
    ¬(removeWindow sampleWorld 0 5).backref 5 = none := by
  decide

/-- C8 (amended): for every window present in a desktop's stack,
`RemoveWindow` removes the first matching entry while preserving the
relative order of the remaining windows and fires the manager's `Removed`
hook, but it does *not* clear the removed window's weak back-reference
(`GetDesktop` still returns the old desktop); removing a window not
present in the stack is a silent no-op. -/
theorem C8_remove_window (s : World) (d w : Nat) :
    (∀ l1 l2 : List Nat, s.stackOf d = l1 ++ w :: l2 → w ∉ l1 →
      (removeWindow s d w).stackOf d = l1 ++ l2 ∧
      (removeWindow s d w).log = s.log ++ [Hook.removed w] ∧
      (removeWindow s d w).backref w = s.backref w) ∧
    (w ∉ s.stackOf d → removeWindow s d w = s) := by
  constructor
  · intro l1 l2 hsplit hnotin
    have hmem : w ∈ s.stackOf d := by
      rw [hsplit]
      exact List.mem_append_right _ (List.mem_cons_self _ _)
    have hne : s.stackOf d ≠ [] := by
      rw [hsplit]
      intro hc
      have := congrArg List.length hc
      simp at this
    have hd : d < s.desks.length := by
      by_contra hge
      apply hne
      unfold World.stackOf
      rw [List.get?_eq_none.mpr (by omega)]
      rfl
    unfold removeWindow
    rw [if_pos hmem]
    refine ⟨?_, rfl, rfl⟩
    unfold World.setStack World.stackOf
    dsimp only
    rw [List.get?_set_eq, List.get?_eq_get hd]
    dsimp only [Option.map_some, Option.getD_some]
    unfold World.stackOf at hsplit
    rw [List.get?_eq_get hd] at hsplit
    dsimp only [Option.getD_some] at hsplit
    rw [hsplit, List.erase_append_right _ hnotin, List.erase_cons_head]
  · intro hnot
    unfold removeWindow
    rw [if_neg hnot]

/-- Witness for C8 on the concrete world: removing window 5 from desktop
0 (where the stack is exactly [5]) empties the stack, logs the hook and
keeps the back-reference; removing it from desktop 1 is a no-op. -/
theorem C8_remove_window_witness :
    sampleWorld.stackOf 0 = [] ++ 5 :: [] ∧ 5 ∉ ([] : List Nat) ∧
    (removeWindow sampleWorld 0 5).stackOf 0 = [] ∧
    (removeWindow sampleWorld 0 5).log = sampleWorld.log ++ [Hook.removed 5] ∧
    (removeWindow sampleWorld 0 5).backref 5 = sampleWorld.backref 5 ∧
    5 ∉ sampleWorld.stackOf 1 ∧
    removeWindow sampleWorld 1 5 = sampleWorld := by
  have h1 := (C8_remove_window sampleWorld 0 5).1 [] [] (by decide) (by decide)
  have h2 := (C8_remove_window sampleWorld 1 5).2 (by decide)
  exact ⟨by decide, by decide, h1.1, h1.2.1, h1.2.2, by decide, h2⟩

/-- C9 counterexample: `SetBorder` does *not* re-apply the border-minimum
clamp to the current geometry.  `NewWindow` + `SetRect(0,0,5,1)` (no
border, no clamp) + `SetBorder(true)` leaves a bordered window of width 5
and height 1, violating the 12×2 minimum the claim says is re-enforced. -/
theorem C9_set_border_counterexample :
    thinBorderedWin = (Window.setRect newWindow 0 0 5 1).setBorder true ∧
    thinBorderedWin.border = true ∧
    thinBorderedWin.rect = ⟨0, 0, 5, 1⟩ ∧
    thinBorderedWin.rect.w < 12 ∧ thinBorderedWin.rect.h < 2 := by
  decide

/-- C9 (amended): toggling the border via `SetBorder` sets the border
flag, leaves the window's geometry (and restored rectangle and state)
untouched — it does *not* re-apply the border-minimum clamp — re-lays-out
a full-size client to the new inner rectangle, and triggers a `Resized`
notification to the manager exactly when attached. -/
theorem C9_set_border (win : Window) (b : Bool) :
    (win.setBorder b).border = b ∧
    (win.setBorder b).rect = win.rect ∧
    (win.setBorder b).restored = win.restored ∧
    (win.setBorder b).state = win.state ∧
    (win.client.isSome = true → win.clientFullSize = true →
      (win.setBorder b).client = some (innerRect b win.rect)) ∧
    (win.setBorder b).notes =
      win.notes ++ (if win.desktop.isSome = true then [Note.resized] else []) := by
  unfold Window.setBorder
  dsimp only
  by_cases h1 : win.client.isSome = true ∧ win.clientFullSize = true
  · rw [if_pos h1]
    by_cases h2 : win.desktop.isSome = true
    · rw [if_pos h2, if_pos h2]
      exact ⟨rfl, rfl, rfl, rfl, fun _ _ => rfl, rfl⟩
    · rw [if_neg h2, if_neg h2]
      exact ⟨rfl, rfl, rfl, rfl, fun _ _ => rfl, (List.append_nil _).symm⟩
  · rw [if_neg h1]
    by_cases h2 : win.desktop.isSome = true
    · rw [if_pos h2, if_pos h2]
      exact ⟨rfl, rfl, rfl, rfl, fun ha hb => absurd ⟨ha, hb⟩ h1, rfl⟩
    · rw [if_neg h2, if_neg h2]
      exact ⟨rfl, rfl, rfl, rfl, fun ha hb => absurd ⟨ha, hb⟩ h1,
        (List.append_nil _).symm⟩

/-- Witness for C9 on an attached window with a full-size client. -/
theorem C9_set_border_witness :
    sampleClientWin.client.isSome = true ∧
    sampleClientWin.clientFullSize = true ∧
    (sampleClientWin.setBorder true).border = true ∧
    (sampleClientWin.setBorder true).rect = sampleClientWin.rect ∧
    (sampleClientWin.setBorder true).client =
      some (innerRect true sampleClientWin.rect) ∧
    (sampleClientWin.setBorder true).notes =
      sampleClientWin.notes ++ [Note.resized] := by
  have h := C9_set_border sampleClientWin true
  refine ⟨rfl, rfl, h.1, h.2.1, h.2.2.2.2.1 rfl rfl, ?_⟩
  rw [h.2.2.2.2.2]
  decide

/-- C10: calling `Desktop.AddWindow` with a window already attached to
that same desktop is a complete no-op: the world is unchanged — in
particular the stack keeps its order (the window is neither duplicated
nor moved to the top) and no `Removed`/`Added` hooks fire. -/
theorem C10_add_window_same_desktop (s : World) (d w : Nat)
    (h : s.backref w = some d) :
    addWindow s d w = s ∧
    (addWindow s d w).stackOf d = s.stackOf d ∧
    (addWindow s d w).log = s.log := by
  have hmain : addWindow s d w = s := by
    unfold addWindow
    rw [h]
    dsimp only
    rw [if_pos rfl]
  exact ⟨hmain, by rw [hmain], by rw [hmain]⟩

/-- Witness for C10: re-adding window 5 to its own desktop 0 changes
nothing. -/
theorem C10_add_window_same_desktop_witness :
    sampleWorld.backref 5 = some 0 ∧ addWindow sampleWorld 0 5 = sampleWorld := by
  have h := C10_add_window_same_desktop sampleWorld 0 5 (by decide)
  exact ⟨by decide, h.1⟩

end Tuix
